import Mathlib

/-!
Shallow embedding of the SynthSeg wrapper script (run_synthseg.py) and proofs
about its crop planner, CPU-flag propagation, label remapping, and posterior
remapping logic. Definitions come first, translated from the source script;
theorems follow.
-/

namespace SynthSegWrap

/-! Command-line arguments (the argparse namespace of the script). -/

/-- The parsed command-line arguments of the wrapper. Field names follow the
attribute names on the argparse result; `crop` defaults to `[192, 256, 192]`. -/
structure Args where
  input : String
  output : String
  mask : Option String
  mask_pad : Int
  resample_orig : Bool
  cpu : Bool
  crop : List Int
  post : Bool
  parc : Bool
  antsct : Bool
  qc : Bool
  robust : Bool
  vol : Bool

/-! Crop planner (lines 110-142 of the script).

The script sets `crop_params = args.crop`; when a readable mask is given, for
each axis `idx` in `range(0,3)`: if `bb_extent_ras[idx] > args.crop[idx]` then
`crop_params[idx] = crop_params[idx] + 32` and `use_cpu = True`.
`crop_params` aliases `args.crop`, so the comparison at step `idx` reads the
current (possibly already-mutated) list; axis `idx` itself is mutated only at
step `idx`, after its own comparison. The rounded physical bounding-box extent
of the mask, `bb_extent_ras`, is taken as an input (it is computed by the
external imaging library). -/

/-- One iteration of the crop-enlargement loop body at axis `idx`:
state is the pair (crop_params, use_cpu). -/
def cropStep (extent : List Int) (st : List Int × Bool) (idx : Nat) : List Int × Bool :=
  if extent.getD idx 0 > st.1.getD idx 0 then
    (st.1.set idx (st.1.getD idx 0 + 32), true)
  else st

/-- The crop planner loop `for idx in range(0,3)` over the state
(crop_params, use_cpu). -/
def crop_plan (extent crop : List Int) (use_cpu : Bool) : List Int × Bool :=
  (List.range 3).foldl (cropStep extent) (crop, use_cpu)

/-- How the pre-resampling working image `SynthSegInput` was produced:
by the external region extraction, or by a verbatim copy of the input. -/
inductive PreprocSource where
  | extracted
  | copiedVerbatim
deriving DecidableEq

/-- Lines 110-142: run the crop planner when the mask is supplied and is a
readable file (the check `args.mask is not None and os.path.isfile(args.mask)`,
with the file test abstracted as the boolean `maskIsFile`); otherwise leave
crop and cpu flag as given and copy the input verbatim (`shutil.copyfile`). -/
def plan (args : Args) (maskIsFile : Bool) (extent : List Int) :
    (List Int × Bool) × PreprocSource :=
  if args.mask.isSome && maskIsFile then
    (crop_plan extent args.crop args.cpu, PreprocSource.extracted)
  else
    ((args.crop, args.cpu), PreprocSource.copiedVerbatim)

/-- The planner forced CPU mode: it ran, and on some axis the extent exceeded
the requested crop size of that axis. -/
def plannerForced (args : Args) (maskIsFile : Bool) (extent : List Int) : Bool :=
  args.mask.isSome && maskIsFile &&
    (List.range 3).any (fun i => decide (extent.getD i 0 > args.crop.getD i 0))

/-! Segmentation tool argument list (lines 149-168). -/

/-- Line 108: the working image path, output prefix plus "SynthSegInput.nii.gz",
with the resolved output prefix modelled by `args.output`. -/
def synthseg_input_path (args : Args) : String :=
  args.output ++ "SynthSegInput.nii.gz"

/-- Line 149: the label-map output path, output prefix plus "SynthSeg.nii.gz". -/
def output_seg_path (args : Args) : String :=
  args.output ++ "SynthSeg.nii.gz"

/-- Lines 151-168: the argument list handed to the external segmentation
script, built from the base arguments, the (possibly enlarged) crop window and
the option flags; the final `use_cpu` value appends the option string. -/
def synthseg_args (args : Args) (crop_params : List Int) (use_cpu : Bool) : List String :=
  let s0 := ["--i", synthseg_input_path args, "--o", output_seg_path args, "--crop"]
    ++ crop_params.map (fun x => toString x)
  let s1 := if args.post then s0 ++ ["--post", args.output ++ "Posteriors.nii.gz"] else s0
  let s2 := if args.qc then s1 ++ ["--qc", args.output ++ "QC.csv"] else s1
  let s3 := if args.vol then s2 ++ ["--vol", args.output ++ "Volumes.csv"] else s2
  let s4 := if args.parc then s3 ++ ["--parc"] else s3
  let s5 := if args.robust then s4 ++ ["--robust"] else s4
  if use_cpu then s5 ++ ["--cpu"] else s5

/-! Label remapping to antsct labels (lines 194-242).

The fixed 33-entry table `label_to_ants`, in the insertion order of the source.
The remap loop starts from `np.zeros_like` and, for each table entry, assigns
the target label to every voxel whose input value equals the source label. -/

/-- The fixed SynthSeg-label to antsct-label lookup table (33 entries,
insertion order as in the source). -/
def label_to_ants : List (Int × Int) :=
  [(0, 0), (2, 3), (3, 2), (4, 1), (5, 1), (7, 6), (8, 6), (10, 4), (11, 4),
   (12, 4), (13, 4), (14, 1), (15, 1), (16, 5), (17, 4), (18, 4), (24, 1),
   (26, 4), (28, 4), (41, 3), (42, 2), (43, 1), (44, 1), (46, 6), (47, 6),
   (49, 4), (50, 4), (51, 4), (52, 4), (53, 4), (54, 4), (58, 4), (60, 4)]

/-- One masked assignment `output_array[synthseg_array == label] = ants_label`:
every position of `out` whose corresponding voxel of `vol` equals the source
label receives the target label. -/
def maskAssign (vol : List Int) (out : List Int) (p : Int × Int) : List Int :=
  (out.zip vol).map (fun q => if q.2 = p.1 then p.2 else q.1)

/-- Lines 232-235: `output_array = np.zeros_like(synthseg_array)` followed by
one masked assignment per table entry. -/
def remapVolume (vol : List Int) : List Int :=
  label_to_ants.foldl (maskAssign vol) (vol.map (fun _ => 0))

/-- The per-voxel meaning of the masked-assignment loop: the last matching
table entry wins, with default 0. -/
def applyRemap (v : Int) : Int :=
  label_to_ants.foldl (fun acc p => if v = p.1 then p.2 else acc) 0

/-! Posterior remapping (lines 250-260), per voxel.

The accumulator list starts as six zeros; the loop enumerates the table keys
and, skipping label 0, adds the input posterior channel at that enumeration
index to the accumulator at position `category - 1`, where `category` is the
table value for that label. Probabilities are modelled as rationals. -/

/-- Lines 250-260 at one voxel: input `prob` holds the per-label posterior
channel values in table-key order; output is the six category accumulators. -/
def ants_probs (prob : List Rat) : List Rat :=
  label_to_ants.enum.foldl
    (fun acc q =>
      if q.2.1 = 0 then acc
      else acc.set (q.2.2 - 1).toNat ((acc.getD (q.2.2 - 1).toNat 0) + prob.getD q.1 0))
    (List.replicate 6 0)

/-! Output images and geometric metadata (lines 237-242 and 262-268). -/

/-- A medical image: voxel data plus geometric metadata. -/
structure Image (α : Type) where
  data : List α
  origin : List Rat
  spacing : List Rat
  direction : List Rat

/-- Model of `sitk.GetImageFromArray`: a fresh image with default geometric
metadata. -/
def imageFromArray {α : Type} (d : List α) : Image α :=
  { data := d, origin := [0, 0, 0], spacing := [1, 1, 1],
    direction := [1, 0, 0, 0, 1, 0, 0, 0, 1] }

/-- Model of SetOrigin. -/
def setOrigin {α : Type} (img : Image α) (o : List Rat) : Image α :=
  { img with origin := o }

/-- Model of SetSpacing. -/
def setSpacing {α : Type} (img : Image α) (s : List Rat) : Image α :=
  { img with spacing := s }

/-- Model of SetDirection. -/
def setDirection {α : Type} (img : Image α) (d : List Rat) : Image α :=
  { img with direction := d }

/-- Lines 237-240: the remapped label image, with origin, spacing and
direction set from `synthseg_labels`. -/
def output_image (synthseg_labels : Image Int) : Image Int :=
  setDirection
    (setSpacing
      (setOrigin (imageFromArray (remapVolume synthseg_labels.data))
        synthseg_labels.origin)
      synthseg_labels.spacing)
    synthseg_labels.direction

/-- Lines 262-267: one remapped posterior channel image, with origin, spacing
and direction set from `synthseg_labels`. -/
def ants_posterior (synthseg_labels : Image Int) (category_prob : List Rat) : Image Rat :=
  setDirection
    (setSpacing
      (setOrigin (imageFromArray category_prob) synthseg_labels.origin)
      synthseg_labels.spacing)
    synthseg_labels.direction

/-! Postprocessing step (lines 175-189). -/

/-- Lines 154-156: `post_output_file` is assigned only when the post flag was
given; otherwise the Python name stays unbound, modelled as `none`. -/
def post_output_file (args : Args) : Option String :=
  if args.post then some (args.output ++ "Posteriors.nii.gz") else none

/-- The external invocations of the postprocessing block. -/
inductive PostAction where
  | resampleSegToOrig
  | resamplePostToOrig (src : String)
  | resampleParcToOrig
  | antsctOutputs
deriving DecidableEq

/-- Lines 175-189: the postprocessing control flow. Returns the actions
performed in order, and an error message when the script aborts (reading the
unbound name `post_output_file` raises NameError). -/
def postproc (args : Args) : List PostAction × Option String :=
  if args.resample_orig || args.antsct then
    let acts := [PostAction.resampleSegToOrig]
    if args.post || args.antsct then
      match post_output_file args with
      | some p =>
        let acts := acts ++ [PostAction.resamplePostToOrig p]
        let acts := acts ++ (if args.parc then [PostAction.resampleParcToOrig] else [])
        (acts ++ (if args.antsct then [PostAction.antsctOutputs] else []), none)
      | none =>
        (acts, some "NameError: name post_output_file is not defined")
    else
      let acts := acts ++ (if args.parc then [PostAction.resampleParcToOrig] else [])
      (acts ++ (if args.antsct then [PostAction.antsctOutputs] else []), none)
  else ([], none)

/-- The failing invocation for claim C5: the antsct flag given without the
post flag (and without resample-orig). -/
def antsct_only_args : Args :=
  { input := "t1.nii.gz", output := "/out/sub1_", mask := none,
    mask_pad := 32, resample_orig := false, cpu := false,
    crop := [192, 256, 192], post := false, parc := false, antsct := true,
    qc := false, robust := false, vol := false }

/-! Helper theorems. -/

/-- Closed form of the planner loop on a three-entry crop window: each axis is
compared against its own original value and enlarged by 32 independently, and
the cpu flag is or-ed with the three comparisons. -/
theorem crop_plan_eq (extent : List Int) (a b c : Int) (u : Bool) :
    crop_plan extent [a, b, c] u =
      ([if extent.getD 0 0 > a then a + 32 else a,
        if extent.getD 1 0 > b then b + 32 else b,
        if extent.getD 2 0 > c then c + 32 else c],
       ((u || decide (extent.getD 0 0 > a)) || decide (extent.getD 1 0 > b))
         || decide (extent.getD 2 0 > c)) := by
  have h3 : List.range 3 = [0, 1, 2] := by decide
  unfold crop_plan
  rw [h3]
  by_cases h0 : a < extent[0]?.getD 0 <;>
    by_cases h1 : b < extent[1]?.getD 0 <;>
      by_cases h2 : c < extent[2]?.getD 0 <;>
        simp [cropStep, h0, h1, h2, List.set]

theorem digitChar_isDigit_of_lt : ∀ m, m < 10 → (Nat.digitChar m).isDigit = true := by
  decide

theorem toDigitsCore_digits (fuel : Nat) : ∀ (n : Nat) (ds : List Char),
    (∀ ch ∈ ds, ch.isDigit = true) →
    ∀ ch ∈ Nat.toDigitsCore 10 fuel n ds, ch.isDigit = true := by
  induction fuel with
  | zero => intro n ds h ch hch; exact h ch hch
  | succ fuel ih =>
    intro n ds h ch hch
    rw [Nat.toDigitsCore] at hch
    have hd : (Nat.digitChar (n % 10)).isDigit = true :=
      digitChar_isDigit_of_lt _ (Nat.mod_lt _ (by norm_num))
    have hcons : ∀ ch ∈ Nat.digitChar (n % 10) :: ds, ch.isDigit = true := by
      intro x hx
      rcases List.mem_cons.mp hx with hx | hx
      · exact hx ▸ hd
      · exact h x hx
    by_cases hz : n / 10 = 0
    · rw [if_pos hz] at hch
      exact hcons ch hch
    · rw [if_neg hz] at hch
      exact ih (n / 10) _ hcons ch hch

theorem natRepr_chars_digit (n : Nat) : ∀ ch ∈ (Nat.repr n).data, ch.isDigit = true := by
  intro ch hch
  have hdata : (Nat.repr n).data = Nat.toDigitsCore 10 (n + 1) n [] := rfl
  rw [hdata] at hch
  exact toDigitsCore_digits (n + 1) n [] (by simp) ch hch

theorem natRepr_ne_ddcpu (n : Nat) : Nat.repr n ≠ "--cpu" := by
  intro h
  have hch : '-' ∈ (Nat.repr n).data := by rw [h]; decide
  have := natRepr_chars_digit n '-' hch
  simp [Char.isDigit] at this

theorem natRepr_ne_dcpu (n : Nat) : Nat.repr n ≠ "-cpu" := by
  intro h
  have hch : '-' ∈ (Nat.repr n).data := by rw [h]; decide
  have := natRepr_chars_digit n '-' hch
  simp [Char.isDigit] at this

/-- No decimal rendering of an integer equals the option string "--cpu". -/
theorem toString_int_ne_cpu (x : Int) : toString x ≠ "--cpu" := by
  cases x with
  | ofNat m =>
    show Nat.repr m ≠ "--cpu"
    exact natRepr_ne_ddcpu m
  | negSucc m =>
    show ("-" ++ Nat.repr (m + 1)) ≠ "--cpu"
    intro h
    have hd : ('-' :: (Nat.repr (m + 1)).data) = ['-', '-', 'c', 'p', 'u'] := by
      have := congrArg String.data h
      simpa using this
    have hdata : (Nat.repr (m + 1)).data = ['-', 'c', 'p', 'u'] :=
      List.cons_injective.eq_iff.mp hd
    have hch : '-' ∈ (Nat.repr (m + 1)).data := by rw [hdata]; decide
    have := natRepr_chars_digit (m + 1) '-' hch
    simp [Char.isDigit] at this

/-- A path built as prefix-plus-long-suffix is longer than "--cpu", hence
distinct from it. -/
theorem long_append_ne_cpu (s t : String) (h : 5 < t.length) : s ++ t ≠ "--cpu" := by
  intro he
  have hl := congrArg String.length he
  rw [String.length_append] at hl
  have h5 : ("--cpu" : String).length = 5 := by decide
  omega

theorem not_mem_ite_append {x : String} (c : Prop) [Decidable c] {l m : List String}
    (h1 : x ∉ l) (h2 : x ∉ m) : x ∉ (if c then l ++ m else l) := by
  split
  · intro hx
    rcases List.mem_append.mp hx with hx | hx
    · exact h1 hx
    · exact h2 hx
  · exact h1

/-- The option string "--cpu" appears in the segmentation argument list exactly
when the final `use_cpu` flag is true. -/
theorem cpu_mem_iff (args : Args) (crop_params : List Int) (u : Bool) :
    ("--cpu" ∈ synthseg_args args crop_params u) ↔ u = true := by
  have hbase : ("--cpu" : String) ∉
      (["--i", synthseg_input_path args, "--o", output_seg_path args, "--crop"]
        ++ crop_params.map (fun x => toString x)) := by
    intro hx
    rcases List.mem_append.mp hx with hx | hx
    · simp only [List.mem_cons, List.not_mem_nil, or_false] at hx
      rcases hx with hx | hx | hx | hx | hx
      · exact absurd hx (by decide)
      · exact long_append_ne_cpu args.output "SynthSegInput.nii.gz" (by decide) hx.symm
      · exact absurd hx (by decide)
      · exact long_append_ne_cpu args.output "SynthSeg.nii.gz" (by decide) hx.symm
      · exact absurd hx (by decide)
    · rcases List.mem_map.mp hx with ⟨x, _, hx⟩
      exact toString_int_ne_cpu x hx
  have h5 : ("--cpu" : String) ∉
      (synthseg_args args crop_params false) := by
    unfold synthseg_args
    simp only [if_neg Bool.false_ne_true]
    apply not_mem_ite_append
    apply not_mem_ite_append
    apply not_mem_ite_append
    apply not_mem_ite_append
    apply not_mem_ite_append
    · exact hbase
    · intro hx
      rcases List.mem_cons.mp hx with hx | hx
      · exact absurd hx (by decide)
      · rcases List.mem_cons.mp hx with hx | hx
        · exact long_append_ne_cpu args.output "Posteriors.nii.gz" (by decide) hx.symm
        · simp at hx
    · intro hx
      rcases List.mem_cons.mp hx with hx | hx
      · exact absurd hx (by decide)
      · rcases List.mem_cons.mp hx with hx | hx
        · exact long_append_ne_cpu args.output "QC.csv" (by decide) hx.symm
        · simp at hx
    · intro hx
      rcases List.mem_cons.mp hx with hx | hx
      · exact absurd hx (by decide)
      · rcases List.mem_cons.mp hx with hx | hx
        · exact long_append_ne_cpu args.output "Volumes.csv" (by decide) hx.symm
        · simp at hx
    · intro hx
      rcases List.mem_cons.mp hx with hx | hx
      · exact absurd hx (by decide)
      · simp at hx
    · intro hx
      rcases List.mem_cons.mp hx with hx | hx
      · exact absurd hx (by decide)
      · simp at hx
  cases u
  · constructor
    · intro h; exact absurd h h5
    · intro h; exact absurd h (by decide)
  · constructor
    · intro _; rfl
    · intro _
      unfold synthseg_args
      simp only [if_pos rfl]
      exact List.mem_append_right _ (by simp)

/-- The final `use_cpu` value is the user cpu flag or-ed with the forcing
decision of the planner. -/
theorem plan_cpu (args : Args) (maskIsFile : Bool) (extent : List Int)
    (a b c : Int) (hcrop : args.crop = [a, b, c]) :
    (plan args maskIsFile extent).1.2
      = (args.cpu || plannerForced args maskIsFile extent) := by
  unfold plan plannerForced
  have hr : List.range 3 = [0, 1, 2] := by decide
  simp only [hcrop, hr]
  by_cases hms : (args.mask.isSome && maskIsFile) = true
  · rw [if_pos hms, hms, crop_plan_eq]
    simp [Bool.or_assoc]
  · rw [if_neg hms]
    simp only [Bool.not_eq_true] at hms
    rw [hms]
    simp

theorem maskAssign_length (vol out : List Int) (p : Int × Int) :
    (maskAssign vol out p).length = min out.length vol.length := by
  simp [maskAssign]

theorem maskAssign_getD (out vol : List Int) (p : Int × Int) (i : Nat)
    (hi : i < vol.length) (ho : out.length = vol.length) :
    (maskAssign vol out p).getD i 0
      = (if vol.getD i 0 = p.1 then p.2 else out.getD i 0) := by
  induction out generalizing vol i with
  | nil =>
    cases vol with
    | nil => exact absurd hi (by simp)
    | cons v vs => exact absurd ho (by simp)
  | cons o os ih =>
    cases vol with
    | nil => exact absurd hi (by simp)
    | cons v vs =>
      cases i with
      | zero => simp [maskAssign]
      | succ n =>
        have hn : n < vs.length := by simpa using hi
        have ho' : os.length = vs.length := by simpa using ho
        have := ih vs n hn ho'
        simpa [maskAssign] using this

theorem remapFold_getD (t : List (Int × Int)) (out vol : List Int) (i : Nat)
    (hi : i < vol.length) (ho : out.length = vol.length) :
    (t.foldl (maskAssign vol) out).getD i 0
      = t.foldl (fun a p => if vol.getD i 0 = p.1 then p.2 else a) (out.getD i 0) := by
  induction t generalizing out with
  | nil => rfl
  | cons p t ih =>
    rw [List.foldl_cons, List.foldl_cons]
    have ho' : (maskAssign vol out p).length = vol.length := by
      rw [maskAssign_length, ho, Nat.min_self]
    rw [ih (maskAssign vol out p) ho', maskAssign_getD out vol p i hi ho]

theorem getD_map_zero (vol : List Int) (i : Nat) :
    (vol.map (fun _ => (0:Int))).getD i 0 = 0 := by
  induction vol generalizing i with
  | nil => simp
  | cons v vs ih =>
    cases i with
    | zero => rfl
    | succ n => simpa using ih n

/-- Pointwise description of the remap loop: voxel `i` of the output is
`applyRemap` of voxel `i` of the input. -/
theorem remapVolume_getD (vol : List Int) (i : Nat) (hi : i < vol.length) :
    (remapVolume vol).getD i 0 = applyRemap (vol.getD i 0) := by
  unfold remapVolume applyRemap
  rw [remapFold_getD label_to_ants _ vol i hi (by simp), getD_map_zero]

/-- A fold that keeps the last matching entry returns its start value when no
entry matches. -/
theorem lastMatch_of_not_mem (t : List (Int × Int)) (x a : Int)
    (h : ∀ p ∈ t, x ≠ p.1) :
    t.foldl (fun acc p => if x = p.1 then p.2 else acc) a = a := by
  induction t generalizing a with
  | nil => rfl
  | cons p t ih =>
    rw [List.foldl_cons, if_neg (h p (by simp))]
    exact ih a (fun q hq => h q (by simp [hq]))

/-- With pairwise-distinct keys, a fold that keeps the last matching entry
returns the value of the (unique) matching entry. -/
theorem lastMatch_of_mem (t : List (Int × Int)) (x y a : Int)
    (hmem : (x, y) ∈ t) (hnd : (t.map Prod.fst).Nodup) :
    t.foldl (fun acc p => if x = p.1 then p.2 else acc) a = y := by
  induction t generalizing a with
  | nil => exact absurd hmem (by simp)
  | cons p t ih =>
    rw [List.foldl_cons]
    have hnd' : (t.map Prod.fst).Nodup := (List.nodup_cons.mp hnd).2
    rcases List.mem_cons.mp hmem with heq | htail
    · have hx : x = p.1 := by rw [← heq]
      have hy : y = p.2 := by rw [← heq]
      rw [if_pos hx, ← hy]
      apply lastMatch_of_not_mem
      intro q hq hxq
      apply (List.nodup_cons.mp hnd).1
      have h1 : q.1 ∈ t.map Prod.fst := List.mem_map_of_mem Prod.fst hq
      rw [← hxq, hx] at h1
      exact h1
    · exact ih _ htail hnd'

/-! Claim theorems. -/

/-- Claim C1: for a requested crop window of multiples of 32 and a mask whose
rounded physical bounding-box extent exceeds the window on exactly one axis
(by any positive amount), the planner adds exactly 32 to the window value of
that axis, leaves the other two axes unchanged, and sets the CPU-forcing flag
to true; the enlarged value is not re-checked against the extent. -/
theorem crop_single_axis_enlargement (a b c e0 e1 e2 : Int) (u : Bool)
    (i : Nat) (hi : i < 3)
    (h32 : (32:Int) ∣ a ∧ (32:Int) ∣ b ∧ (32:Int) ∣ c)
    (hex : [e0, e1, e2].getD i 0 > [a, b, c].getD i 0)
    (hoth : ∀ j, j < 3 → j ≠ i → [e0, e1, e2].getD j 0 ≤ [a, b, c].getD j 0) :
    crop_plan [e0, e1, e2] [a, b, c] u
      = ([a, b, c].set i ([a, b, c].getD i 0 + 32), true) := by
  rw [crop_plan_eq]
  interval_cases i
  · have hb := hoth 1 (by norm_num) (by norm_num)
    have hc := hoth 2 (by norm_num) (by norm_num)
    simp at hex hb hc
    simp [hex, not_lt.mpr hb, not_lt.mpr hc]
  · have ha := hoth 0 (by norm_num) (by norm_num)
    have hc := hoth 2 (by norm_num) (by norm_num)
    simp at hex ha hc
    simp [hex, not_lt.mpr ha, not_lt.mpr hc]
  · have ha := hoth 0 (by norm_num) (by norm_num)
    have hb := hoth 1 (by norm_num) (by norm_num)
    simp at hex ha hb
    simp [hex, not_lt.mpr ha, not_lt.mpr hb]

/-- Witness for C1: crop 192x256x192, extent 200x100x100 exceeds only axis 0;
the planner returns crop 224x256x192 and forces CPU. -/
theorem crop_single_axis_enlargement_witness :
    crop_plan [200, 100, 100] [192, 256, 192] false = ([224, 256, 192], true) :=
  crop_single_axis_enlargement 192 256 192 200 100 100 false 0 (by norm_num)
    ⟨by norm_num, by norm_num, by norm_num⟩ (by norm_num) (by decide)

/-- Claim C2: for a crop window that is a multiple of 32 on every axis and a
mask whose rounded physical bounding-box extent is at most the window on every
axis, the planner leaves all three crop values unchanged and leaves the
CPU-forcing flag exactly as the user supplied it. -/
theorem crop_noop (a b c e0 e1 e2 : Int) (u : Bool)
    (h32 : (32:Int) ∣ a ∧ (32:Int) ∣ b ∧ (32:Int) ∣ c)
    (hle : ∀ j, j < 3 → [e0, e1, e2].getD j 0 ≤ [a, b, c].getD j 0) :
    crop_plan [e0, e1, e2] [a, b, c] u = ([a, b, c], u) := by
  rw [crop_plan_eq]
  have ha := hle 0 (by norm_num)
  have hb := hle 1 (by norm_num)
  have hc := hle 2 (by norm_num)
  simp at ha hb hc
  simp [not_lt.mpr ha, not_lt.mpr hb, not_lt.mpr hc]

/-- Witness for C2: extent 150x200x150 fits in crop 192x256x192; nothing
changes and the user cpu flag (false here) is preserved. -/
theorem crop_noop_witness :
    crop_plan [150, 200, 150] [192, 256, 192] false = ([192, 256, 192], false) :=
  crop_noop 192 256 192 150 200 150 false
    ⟨by norm_num, by norm_num, by norm_num⟩ (by decide)

/-- Claim C9: for every invocation, the final crop window passed on to the
segmentation tool is, per axis, either the user-supplied value or that value
plus exactly 32; and if the user values are multiples of 32 the final values
are too. -/
theorem crop_window_invariant (args : Args) (maskIsFile : Bool) (extent : List Int)
    (a b c : Int) (hcrop : args.crop = [a, b, c]) (i : Nat) (hi : i < 3) :
    ((plan args maskIsFile extent).1.1.getD i 0 = args.crop.getD i 0
      ∨ (plan args maskIsFile extent).1.1.getD i 0 = args.crop.getD i 0 + 32)
    ∧ ((32:Int) ∣ a ∧ (32:Int) ∣ b ∧ (32:Int) ∣ c →
        (32:Int) ∣ (plan args maskIsFile extent).1.1.getD i 0) := by
  unfold plan
  rw [hcrop]
  split
  · rw [crop_plan_eq]
    interval_cases i <;>
      · simp only [List.getD_cons_zero, List.getD_cons_succ]
        constructor
        · split
          · right; rfl
          · left; rfl
        · intro h32
          split
          · exact dvd_add (by tauto) (by norm_num)
          · tauto
  · interval_cases i <;> simp <;> tauto

/-- Witness for C9: concrete invocation with a readable mask whose extent
exceeds axis 1; the final crop value on axis 1 is the user value plus 32 and
is still a multiple of 32. -/
theorem crop_window_invariant_witness :
    (((plan
        { input := "t1.nii.gz", output := "/out/sub1_", mask := some "mask.nii.gz",
          mask_pad := 32, resample_orig := false, cpu := false,
          crop := [192, 256, 192], post := false, parc := false, antsct := false,
          qc := false, robust := false, vol := false }
        true [100, 300, 100]).1.1.getD 1 0 = 256
      ∨ (plan
        { input := "t1.nii.gz", output := "/out/sub1_", mask := some "mask.nii.gz",
          mask_pad := 32, resample_orig := false, cpu := false,
          crop := [192, 256, 192], post := false, parc := false, antsct := false,
          qc := false, robust := false, vol := false }
        true [100, 300, 100]).1.1.getD 1 0 = 256 + 32)
    ∧ ((32:Int) ∣ 192 ∧ (32:Int) ∣ 256 ∧ (32:Int) ∣ 192 →
      (32:Int) ∣ (plan
        { input := "t1.nii.gz", output := "/out/sub1_", mask := some "mask.nii.gz",
          mask_pad := 32, resample_orig := false, cpu := false,
          crop := [192, 256, 192], post := false, parc := false, antsct := false,
          qc := false, robust := false, vol := false }
        true [100, 300, 100]).1.1.getD 1 0)) :=
  crop_window_invariant _ true [100, 300, 100] 192 256 192 rfl 1 (by norm_num)

/-- Claim C7: when the supplied mask path does not resolve to a readable image
file (or no mask is supplied), the crop planner does not run: the crop window
and CPU flag are used exactly as given, and the input image is copied verbatim
as the pre-resampling working image; the branch returns normally. -/
theorem mask_fallback (args : Args) (maskIsFile : Bool) (extent : List Int)
    (h : args.mask = none ∨ maskIsFile = false) :
    plan args maskIsFile extent = ((args.crop, args.cpu), PreprocSource.copiedVerbatim) := by
  unfold plan
  rcases h with h | h <;> simp [h]

/-- Witness for C7: a mask path is supplied but is not a readable file; the
planner is skipped, crop and cpu flag are untouched, the input is copied. -/
theorem mask_fallback_witness :
    plan
      { input := "t1.nii.gz", output := "/out/sub1_", mask := some "missing.nii.gz",
        mask_pad := 32, resample_orig := false, cpu := false,
        crop := [192, 256, 192], post := false, parc := false, antsct := false,
        qc := false, robust := false, vol := false }
      false [999, 999, 999]
    = (([192, 256, 192], false), PreprocSource.copiedVerbatim) :=
  mask_fallback _ false [999, 999, 999] (Or.inr rfl)

/-- Claim C8: the string "--cpu" appears in the argument list of the
segmentation tool exactly when the user passed the cpu flag or the crop
planner forced CPU mode; in particular with no mask and the user cpu flag
unset, "--cpu" is absent. -/
theorem cpu_flag_propagation (args : Args) (maskIsFile : Bool) (extent : List Int)
    (a b c : Int) (hcrop : args.crop = [a, b, c]) :
    (("--cpu" ∈ synthseg_args args (plan args maskIsFile extent).1.1
        (plan args maskIsFile extent).1.2)
      ↔ (args.cpu = true ∨ plannerForced args maskIsFile extent = true))
    ∧ (args.mask = none → args.cpu = false →
        "--cpu" ∉ synthseg_args args (plan args maskIsFile extent).1.1
          (plan args maskIsFile extent).1.2) := by
  have hiff := cpu_mem_iff args (plan args maskIsFile extent).1.1
    (plan args maskIsFile extent).1.2
  have hcpu := plan_cpu args maskIsFile extent a b c hcrop
  constructor
  · rw [hiff, hcpu, Bool.or_eq_true]
  · intro hmask hucpu hx
    have := hiff.mp hx
    rw [hcpu, hucpu] at this
    simp [plannerForced, hmask] at this

/-- Witness for C8: invocation with no mask, default crop 192 256 192 and no
optional flags; "--cpu" does not occur in the segmentation argument list. -/
theorem cpu_flag_propagation_witness :
    "--cpu" ∉ synthseg_args
      { input := "t1.nii.gz", output := "/out/sub1_", mask := none,
        mask_pad := 32, resample_orig := false, cpu := false,
        crop := [192, 256, 192], post := false, parc := false, antsct := false,
        qc := false, robust := false, vol := false }
      (plan
        { input := "t1.nii.gz", output := "/out/sub1_", mask := none,
          mask_pad := 32, resample_orig := false, cpu := false,
          crop := [192, 256, 192], post := false, parc := false, antsct := false,
          qc := false, robust := false, vol := false } false []).1.1
      (plan
        { input := "t1.nii.gz", output := "/out/sub1_", mask := none,
          mask_pad := 32, resample_orig := false, cpu := false,
          crop := [192, 256, 192], post := false, parc := false, antsct := false,
          qc := false, robust := false, vol := false } false []).1.2 :=
  (cpu_flag_propagation _ false [] 192 256 192 rfl).2 rfl rfl

/-- Claim C3: the label remapper is an elementwise total lookup: every output
voxel equals the table entry for the value of that input voxel, every voxel
whose value is absent from the table is left at zero, and in particular inputs
17, 0, 16 map to 4, 0, 5 respectively. -/
theorem remap_total_lookup (vol : List Int) (i : Nat) (hi : i < vol.length) :
    (∀ y : Int, (vol.getD i 0, y) ∈ label_to_ants → (remapVolume vol).getD i 0 = y)
    ∧ ((vol.getD i 0) ∉ label_to_ants.map Prod.fst → (remapVolume vol).getD i 0 = 0)
    ∧ remapVolume [17, 0, 16] = [4, 0, 5] := by
  refine ⟨?_, ?_, by decide⟩
  · intro y hy
    rw [remapVolume_getD vol i hi]
    exact lastMatch_of_mem label_to_ants _ y 0 hy (by decide)
  · intro hab
    rw [remapVolume_getD vol i hi]
    apply lastMatch_of_not_mem
    intro p hp hxp
    exact hab (hxp ▸ List.mem_map_of_mem Prod.fst hp)

/-- Witness for C3: at voxel 0 of the volume [17], whose value 17 is in the
table with target 4, the remapped output is 4; and the unmapped value 19 is
left at 0. -/
theorem remap_total_lookup_witness :
    (remapVolume [17]).getD 0 0 = 4 ∧ (remapVolume [19]).getD 0 0 = 0 :=
  ⟨(remap_total_lookup [17] 0 (by norm_num)).1 4 (by decide),
   (remap_total_lookup [19] 0 (by norm_num)).2.1 (by decide)⟩

/-- Claim C6: the remapped label map and every remapped posterior channel
carry exactly the origin, spacing and direction of the original-space label
map being remapped; the remapping changes no geometric metadata. -/
theorem remap_metadata_frame (synthseg_labels : Image Int) (category_prob : List Rat) :
    ((output_image synthseg_labels).origin = synthseg_labels.origin
      ∧ (output_image synthseg_labels).spacing = synthseg_labels.spacing
      ∧ (output_image synthseg_labels).direction = synthseg_labels.direction)
    ∧ ((ants_posterior synthseg_labels category_prob).origin = synthseg_labels.origin
      ∧ (ants_posterior synthseg_labels category_prob).spacing = synthseg_labels.spacing
      ∧ (ants_posterior synthseg_labels category_prob).direction = synthseg_labels.direction) := by
  unfold output_image ants_posterior setDirection setSpacing setOrigin imageFromArray
  exact ⟨⟨rfl, rfl, rfl⟩, ⟨rfl, rfl, rfl⟩⟩

/-- Counterexample to claim C4 as stated: for the 33-channel input with all
probability mass on the background channel (the first table key, label 0),
the six output channels sum to 0, not to the input sum 1: the background
channel is skipped by the remapping loop. -/
theorem post_mass_counterexample :
    ¬ ((ants_probs ((1:Rat) :: List.replicate 32 0)).sum
        = ((1:Rat) :: List.replicate 32 0).sum) := by
  simp [ants_probs, label_to_ants, List.enum, List.enumFrom, List.replicate]

/-- Claim C4 (amended): for a posterior input whose per-label channels are
ordered as the table keys, at every voxel the sum of the six remapped output
channel values equals the sum of the input channel values excluding the
background (label 0) channel, i.e. all channels after the first. -/
theorem post_mass_conservation
    (p0 p1 p2 p3 p4 p5 p6 p7 p8 p9 p10 p11 p12 p13 p14 p15 p16 p17 p18 p19
      p20 p21 p22 p23 p24 p25 p26 p27 p28 p29 p30 p31 p32 : Rat) :
    (ants_probs [p0, p1, p2, p3, p4, p5, p6, p7, p8, p9, p10, p11, p12, p13,
      p14, p15, p16, p17, p18, p19, p20, p21, p22, p23, p24, p25, p26, p27,
      p28, p29, p30, p31, p32]).sum
    = ([p0, p1, p2, p3, p4, p5, p6, p7, p8, p9, p10, p11, p12, p13,
      p14, p15, p16, p17, p18, p19, p20, p21, p22, p23, p24, p25, p26, p27,
      p28, p29, p30, p31, p32].drop 1).sum := by
  simp [ants_probs, label_to_ants, List.enum, List.enumFrom]
  ring

/-- Claim C10: the background input channel (position of label 0, the first
table key) contributes to none of the six output channels; each output channel
is the sum of exactly the non-background input channels whose labels map to
that category. -/
theorem background_excluded
    (p0 p1 p2 p3 p4 p5 p6 p7 p8 p9 p10 p11 p12 p13 p14 p15 p16 p17 p18 p19
      p20 p21 p22 p23 p24 p25 p26 p27 p28 p29 p30 p31 p32 : Rat) :
    ants_probs [p0, p1, p2, p3, p4, p5, p6, p7, p8, p9, p10, p11, p12, p13,
      p14, p15, p16, p17, p18, p19, p20, p21, p22, p23, p24, p25, p26, p27,
      p28, p29, p30, p31, p32]
    = [p3 + p4 + p11 + p12 + p16 + p21 + p22,
       p2 + p20,
       p1 + p19,
       p7 + p8 + p9 + p10 + p14 + p15 + p17 + p18 + p25 + p26 + p27 + p28
         + p29 + p30 + p31 + p32,
       p13,
       p5 + p6 + p23 + p24] := by
  simp [ants_probs, label_to_ants, List.enum, List.enumFrom]

/-- Claim C5 is the documented intent but the code fails it: with the antsct
flag and no post flag, the segmentation call is never asked for posteriors
(no "--post" in its argument list), and the postprocessing block resamples
the label map but then aborts with a NameError reading the unassigned
`post_output_file`, so no original-space posteriors and no antsct outputs are
produced. -/
theorem antsct_without_post_fails :
    post_output_file antsct_only_args = none
    ∧ (postproc antsct_only_args).1 = [PostAction.resampleSegToOrig]
    ∧ (postproc antsct_only_args).2
        = some "NameError: name post_output_file is not defined"
    ∧ PostAction.antsctOutputs ∉ (postproc antsct_only_args).1
    ∧ "--post" ∉ synthseg_args antsct_only_args
        (plan antsct_only_args false []).1.1 (plan antsct_only_args false []).1.2 := by
  refine ⟨rfl, rfl, rfl, by decide, ?_⟩
  decide

end SynthSegWrap
